import Mathlib

/-!
Verification of the upgrade-log visualization tool (`upgrade_viz.py`).

The development shallowly embeds the event-reconstruction engine
(`LogParser`), the statistics summarizer (`calculate_upgrade_stats`) and
the timeline layout engine (`SVGGanttChart.generate_chart`) as executable
Lean functions, and proves (or refutes) the behavioral claims made about
them.

Modelling conventions:
* Python `datetime` objects are modelled by the `PyDatetime` structure;
  comparisons and subtraction between aware datetimes go through
  `toUTCMicros` (microseconds relative to a fixed epoch), which matches
  CPython comparing aware datetimes by instant.
* Python exceptions (`ValueError`) are modelled by `PyErr`; a function
  that can raise returns `Option PyErr × σ` (keeping the object state at
  the time of the raise, as in Python) or `Except PyErr α`.
* Python `dict` is modelled by an insertion-ordered association list:
  assigning to an existing key updates in place, assigning a fresh key
  appends (matching CPython dict ordering semantics).
* Python `sorted` (a stable sort) is modelled by `List.mergeSort`.
* Regex searches are modelled by direct character-list scanners that
  reproduce the leftmost-match/greedy semantics of the patterns used in
  the source (for these particular patterns backtracking inside a
  character class can never succeed, because each class is followed by a
  literal excluded from the class, so greedy maximal runs are exact).
* Floats are modelled by exact rationals; no claim in scope depends on
  binary rounding.
-/

/-- Python exceptions that the modelled code can raise. -/
inductive PyErr where
  | valueError : PyErr
deriving Repr, DecidableEq

/-- Model of an aware `datetime.datetime` with a fixed-offset timezone,
as produced by `datetime.fromisoformat` on strings matched by the
timestamp regex (which only admits a `+HH:MM` offset). -/
structure PyDatetime where
  year : Nat
  month : Nat
  day : Nat
  hour : Nat
  minute : Nat
  second : Nat
  microsecond : Nat
  offHour : Nat
  offMinute : Nat
deriving Repr, DecidableEq

/-- Days from 1970-01-01 for a civil date (valid for year ≥ 1), the
standard days-from-civil calendar algorithm. -/
def daysFromCivil (Y M D : Nat) : Int :=
  let y : Nat := if M ≤ 2 then Y - 1 else Y
  let era : Nat := y / 400
  let yoe : Nat := y % 400
  let mp : Nat := (M + 9) % 12
  let doy : Nat := (153 * mp + 2) / 5 + D - 1
  let doe : Nat := yoe * 365 + yoe / 4 - yoe / 100 + doy
  (era * 146097 + doe : Int) - 719468

/-- The instant of an aware datetime, in microseconds since the epoch
(UTC). Aware Python datetimes compare and subtract by this value. -/
def toUTCMicros (t : PyDatetime) : Int :=
  (daysFromCivil t.year t.month t.day * 86400
    + ((t.hour * 3600 + t.minute * 60 + t.second : Nat) : Int)
    - ((t.offHour * 60 + t.offMinute : Nat) : Int) * 60) * 1000000
    + (t.microsecond : Int)

/-- Gregorian leap-year test. -/
def isLeapYear (y : Nat) : Bool :=
  y % 4 == 0 && (y % 100 != 0 || y % 400 == 0)

/-- Number of days in a month (month assumed in 1..12). -/
def daysInMonth (y m : Nat) : Nat :=
  if m == 2 then (if isLeapYear y then 29 else 28)
  else if m == 4 || m == 6 || m == 9 || m == 11 then 30
  else 31

/-- Validity check performed by `datetime.fromisoformat` on the fields
captured by the timestamp regex: out-of-range date and time-of-day
fields raise `ValueError`. The timezone offset has no per-component
bound — `fromisoformat` normalizes it (minute 60..99 carries into the
hour) and only requires the total to be strictly below 24 hours, the
`timezone` constructor's limit. -/
def isoFieldsValid (t : PyDatetime) : Bool :=
  1 ≤ t.year && t.year ≤ 9999
    && 1 ≤ t.month && t.month ≤ 12
    && 1 ≤ t.day && t.day ≤ daysInMonth t.year t.month
    && t.hour ≤ 23 && t.minute ≤ 59 && t.second ≤ 59
    && t.offHour * 60 + t.offMinute < 1440

/-! Character-level helpers for the regex models. -/

/-- The single-quote character (kept out of string literals). -/
def qc : Char := Char.ofNat 39

/-- The opening-brace character (kept out of string literals). -/
def obc : Char := Char.ofNat 123

/-- The closing-brace character (kept out of string literals). -/
def cbc : Char := Char.ofNat 125

/-- Whitespace as stripped by Python `str.strip()` (ASCII subset). -/
def pyWs (c : Char) : Bool :=
  c == ' ' || c == '\t' || c == '\n' || c == '\x0d'
    || c == Char.ofNat 11 || c == Char.ofNat 12

/-- Model of Python `str.strip()` on a character list. -/
def stripCh (cs : List Char) : List Char :=
  ((cs.dropWhile pyWs).reverse.dropWhile pyWs).reverse

/-- Numeric value of a decimal digit character. -/
def digitVal (c : Char) : Nat := c.toNat - 48

/-- Consume exactly two decimal digits, returning their value and the
rest of the input. -/
def digits2 : List Char → Option (Nat × List Char)
  | c1 :: c2 :: rest =>
    if c1.isDigit && c2.isDigit then
      some (digitVal c1 * 10 + digitVal c2, rest)
    else none
  | _ => none

/-- Consume exactly four decimal digits, returning their value and the
rest of the input. -/
def digits4 : List Char → Option (Nat × List Char)
  | c1 :: c2 :: c3 :: c4 :: rest =>
    if c1.isDigit && c2.isDigit && c3.isDigit && c4.isDigit then
      some (((digitVal c1 * 10 + digitVal c2) * 10 + digitVal c3) * 10
        + digitVal c4, rest)
    else none
  | _ => none

/-- Consume one expected literal character. -/
def expectCh (c : Char) : List Char → Option (List Char)
  | x :: rest => if x == c then some rest else none
  | [] => none

/-- Microseconds denoted by a fractional-second digit run, following
`fromisoformat`: the first six digits count, shorter runs are padded
with zeros, further digits are truncated away. -/
def fracToMicros (ds : List Char) : Nat :=
  ((ds.take 6).foldl (fun a c => a * 10 + digitVal c) 0)
    * 10 ^ (6 - min 6 ds.length)

/-- Model of the anchored timestamp regex
`^(\d\x7b4\x7d-\d\x7b2\x7d-\d\x7b2\x7dT\d\x7b2\x7d:\d\x7b2\x7d:\d\x7b2\x7d\.\d+\+\d\x7b2\x7d:\d\x7b2\x7d)`:
on success returns the captured fields (shape only, no range check). -/
def matchTimestampShape (cs : List Char) : Option PyDatetime := do
  let (y, r) ← digits4 cs
  let r ← expectCh '-' r
  let (mo, r) ← digits2 r
  let r ← expectCh '-' r
  let (d, r) ← digits2 r
  let r ← expectCh 'T' r
  let (h, r) ← digits2 r
  let r ← expectCh ':' r
  let (mi, r) ← digits2 r
  let r ← expectCh ':' r
  let (s, r) ← digits2 r
  let r ← expectCh '.' r
  let frac := r.takeWhile Char.isDigit
  let r := r.dropWhile Char.isDigit
  if frac.isEmpty then none
  else do
    let r ← expectCh '+' r
    let (oh, r) ← digits2 r
    let r ← expectCh ':' r
    let (om, _) ← digits2 r
    some ⟨y, mo, d, h, mi, s, fracToMicros frac, oh, om⟩

/-- Model of `LogParser.parse_timestamp` on a (stripped) line: if the
timestamp regex does not match the start of the line the result is
`none`; if it matches but the denoted date or time is out of range,
`datetime.fromisoformat` raises `ValueError` — the `except` clause in
the source catches the first attempt but the retry outside the `try`
block re-raises, so the error escapes. -/
def parse_timestampCh (cs : List Char) : Except PyErr (Option PyDatetime) :=
  match matchTimestampShape cs with
  | none => Except.ok none
  | some t =>
    if isoFieldsValid t then Except.ok (some t) else Except.error PyErr.valueError

/-! Literal fragments of the classification regexes. Brace and quote
characters are assembled explicitly. -/

/-- Literal of the reset pattern `Upgrading gateways without controller
upgrade` (searched as a plain substring). -/
def resetLit : List Char := "Upgrading gateways without controller upgrade".data

/-- Leading literal of the start pattern. -/
def upgradingLit : List Char := "Upgrading ".data

/-- Middle literal of the start pattern. -/
def toVersionLit : List Char := " to version".data

/-- Leading literal of the status-payload patterns. -/
def updatingLit : List Char := "Updating upgrade_info to gw ".data

/-- Literal following the unit name in the completion pattern. -/
def statusCompleteLit : List Char :=
  [':', ' ', obc, qc] ++ "status".data ++ [qc, ':', ' ', qc]
    ++ "complete".data ++ [qc]

/-- Literal following the unit name in the installing pattern. -/
def statusInstallingLit : List Char :=
  [':', ' ', obc, qc] ++ "status".data ++ [qc, ':', ' ', qc]
    ++ "installing".data ++ [qc]

/-- Literal introducing the current-version capture. -/
def currVerLit : List Char := [qc] ++ "curr_ver".data ++ [qc, ':', ' ', qc]

/-- Consume an expected literal character sequence, returning the rest. -/
def takeLit : List Char → List Char → Option (List Char)
  | [], cs => some cs
  | _ :: _, [] => none
  | p :: ps, c :: cs => if c == p then takeLit ps cs else none

/-- Substring search (Python `re.search` of a pure literal pattern). -/
def hasSub (pat : List Char) : List Char → Bool
  | [] => (takeLit pat []).isSome
  | c :: cs => (takeLit pat (c :: cs)).isSome || hasSub pat cs

/-- Attempt of the start pattern `Upgrading ([^\s]+) to version(.*)$`
anchored at the head of the input. Because `[^\s]+` is greedy and the
following literal begins with a space, only the maximal non-whitespace
run can match; the captures are (unit name, rest-of-line). -/
def matchStartAt (cs : List Char) : Option (List Char × List Char) := do
  let r ← takeLit upgradingLit cs
  let g1 := r.takeWhile (fun c => !pyWs c)
  let r1 := r.dropWhile (fun c => !pyWs c)
  if g1.isEmpty then none
  else do
    let r2 ← takeLit toVersionLit r1
    some (g1, r2)

/-- Leftmost search of the start pattern over the whole line. -/
def searchStart : List Char → Option (List Char × List Char)
  | [] => none
  | c :: cs =>
    match matchStartAt (c :: cs) with
    | some r => some r
    | none => searchStart cs

/-- Attempt of the tail `'curr_ver': '([^']*)'.*\x7d` of the completion
pattern anchored at the head of the input: the maximal quote-free run is
captured, the following character must be the closing quote, and a
closing brace must occur somewhere after it. -/
def matchCurrVerAt (cs : List Char) : Option (List Char) := do
  let r ← takeLit currVerLit cs
  let g2 := r.takeWhile (fun c => c != qc)
  match r.dropWhile (fun c => c != qc) with
  | [] => none
  | _ :: r2 => if r2.contains cbc then some g2 else none

/-- Rightmost successful position of the current-version tail: the
greedy `.*` before it backtracks from the right, so the rightmost
occurrence that completes the match wins. -/
def searchCurrVerLast : List Char → Option (List Char)
  | [] => none
  | c :: cs =>
    match searchCurrVerLast cs with
    | some r => some r
    | none => matchCurrVerAt (c :: cs)

/-- Attempt of the completion pattern anchored at the head of the input:
literal lead-in, maximal colon-free unit name, the `complete` status
literal, then the current-version tail. Captures (unit, version). -/
def matchCompleteAt (cs : List Char) : Option (List Char × List Char) := do
  let r ← takeLit updatingLit cs
  let g1 := r.takeWhile (fun c => c != ':')
  let r1 := r.dropWhile (fun c => c != ':')
  if g1.isEmpty then none
  else do
    let r2 ← takeLit statusCompleteLit r1
    let g2 ← searchCurrVerLast r2
    some (g1, g2)

/-- Leftmost search of the completion pattern over the whole line. -/
def searchComplete : List Char → Option (List Char × List Char)
  | [] => none
  | c :: cs =>
    match matchCompleteAt (c :: cs) with
    | some r => some r
    | none => searchComplete cs

/-- Attempt of the installing pattern anchored at the head of the input:
literal lead-in, maximal colon-free unit name, the `installing` status
literal, then a closing brace somewhere after. Captures the unit name. -/
def matchInstallingAt (cs : List Char) : Option (List Char) := do
  let r ← takeLit updatingLit cs
  let g1 := r.takeWhile (fun c => c != ':')
  let r1 := r.dropWhile (fun c => c != ':')
  if g1.isEmpty then none
  else do
    let r2 ← takeLit statusInstallingLit r1
    if r2.contains cbc then some g1 else none

/-- Leftmost search of the installing pattern over the whole line. -/
def searchInstalling : List Char → Option (List Char)
  | [] => none
  | c :: cs =>
    match matchInstallingAt (c :: cs) with
    | some r => some r
    | none => searchInstalling cs

/-! The reconstructor state and `parse_line`. -/

/-- Model of the `UpgradeEvent` dataclass. -/
structure UpgradeEvent where
  gateway_name : String
  start_time : PyDatetime
  end_time : Option PyDatetime := none
  version_info : String := ""
  status : String := "in_progress"
deriving Repr, DecidableEq

/-- Model of the `LogParser` mutable state: the `upgrades` dict as an
insertion-ordered association list, plus `overall_start_time`. -/
structure ParserState where
  upgrades : List (String × UpgradeEvent)
  overall_start_time : Option PyDatetime
deriving Repr, DecidableEq

/-- The parser state at `LogParser.__init__`. -/
def initState : ParserState := ⟨[], none⟩

/-- Dict assignment with CPython ordering semantics: an existing key is
updated in place, a fresh key is appended at the end. -/
def dictSet (k : String) (v : UpgradeEvent) :
    List (String × UpgradeEvent) → List (String × UpgradeEvent)
  | [] => [(k, v)]
  | (k0, v0) :: rest =>
    if k0 == k then (k0, v) :: rest else (k0, v0) :: dictSet k v rest

/-- Dict lookup. -/
def dictGet (k : String) : List (String × UpgradeEvent) → Option UpgradeEvent
  | [] => none
  | (k0, v0) :: rest => if k0 == k then some v0 else dictGet k rest

/-- The record created by the explicit start marker. -/
def mkStartEvent (g1 g2 : List Char) (ts : PyDatetime) : UpgradeEvent :=
  { gateway_name := String.mk g1
    start_time := ts
    version_info := String.mk (stripCh g2) }

/-- The record created by the installing marker for an unseen unit. -/
def mkInstallingEvent (g1 : List Char) (ts : PyDatetime) : UpgradeEvent :=
  { gateway_name := String.mk g1
    start_time := ts
    version_info := "(detected from installing status)" }

/-- The mutation applied to an existing, not-yet-complete record by the
completion marker. -/
def completeEvent (ev : UpgradeEvent) (ts : PyDatetime) (g2 : List Char) :
    UpgradeEvent :=
  { ev with
    end_time := some ts
    status := "complete"
    version_info := ev.version_info ++ " -> " ++ String.mk g2 }

/-- The retroactive record created by a completion marker for an unseen
unit. -/
def mkRetroEvent (g1 g2 : List Char) (ts : PyDatetime) : UpgradeEvent :=
  { gateway_name := String.mk g1
    start_time := ts
    end_time := some ts
    version_info := "(retroactive) -> " ++ String.mk g2
    status := "complete" }

/-- The classification cascade of `LogParser.parse_line` after a
timestamp has been extracted: reset, explicit start, installing,
completion, in this order; unmatched lines leave the state unchanged.
None of these branches can raise. -/
def classify (cs : List Char) (ts : PyDatetime) (st : ParserState) :
    ParserState :=
  if hasSub resetLit cs then ⟨[], some ts⟩
  else
    match searchStart cs with
    | some (g1, g2) =>
      { st with upgrades := dictSet (String.mk g1) (mkStartEvent g1 g2 ts) st.upgrades }
    | none =>
      match searchInstalling cs with
      | some g1 =>
        if (dictGet (String.mk g1) st.upgrades).isSome then st
        else { st with upgrades := dictSet (String.mk g1) (mkInstallingEvent g1 ts) st.upgrades }
      | none =>
        match searchComplete cs with
        | some (g1, g2) =>
          match dictGet (String.mk g1) st.upgrades with
          | some ev =>
            if ev.status == "complete" then st
            else { st with upgrades := dictSet (String.mk g1) (completeEvent ev ts g2) st.upgrades }
          | none =>
            { st with upgrades := dictSet (String.mk g1) (mkRetroEvent g1 g2 ts) st.upgrades }
        | none => st

/-- Model of `LogParser.parse_line`: strip the line, drop it when empty,
extract the timestamp (whose failure modes are skipping or raising), and
classify. The returned pair carries the raised exception, if any, next
to the parser state as it stands at that moment (object state survives
a raise in Python). -/
def parse_line (line : String) (st : ParserState) :
    Option PyErr × ParserState :=
  let cs := stripCh line.data
  if cs.isEmpty then (none, st)
  else
    match parse_timestampCh cs with
    | Except.error e => (some e, st)
    | Except.ok none => (none, st)
    | Except.ok (some ts) => (none, classify cs ts st)

/-- Sequential ingestion of all lines, as in the loop of
`LogParser.parse_logs`; an exception stops the loop and propagates. -/
def ingestAll : List String → ParserState → Option PyErr × ParserState
  | [], st => (none, st)
  | l :: ls, st =>
    match parse_line l st with
    | (some e, st1) => (some e, st1)
    | (none, st1) => ingestAll ls st1

/-- Sort key comparison used by `sorted(self.upgrades.values(), key=lambda
x: x.start_time)`: aware datetimes compare by instant. -/
def startLE (a b : UpgradeEvent) : Bool :=
  decide (toUTCMicros a.start_time ≤ toUTCMicros b.start_time)

/-- Model of `LogParser.parse_logs`: ingest every line starting from the
freshly initialized parser, then return the dict values sorted stably by
start time. A raise during ingestion propagates to the caller. -/
def parse_logs (lines : List String) : Except PyErr (List UpgradeEvent) :=
  match ingestAll lines initState with
  | (some e, _) => Except.error e
  | (none, st) => Except.ok ((st.upgrades.map Prod.snd).mergeSort startLE)

/-! The statistics summarizer. -/

/-- The histogram bucket index assigned to a duration in minutes by the
summarizer loop: fixed ascending bucket upper bounds 2, 5, 10, 15, 30,
60 minutes (first bound not exceeded wins) with an unbounded final
bucket. Index 2 is the bucket labelled `5-10m`. -/
def bucketIdx (d : ℚ) : Nat :=
  if d ≤ 2 then 0
  else if d ≤ 5 then 1
  else if d ≤ 10 then 2
  else if d ≤ 15 then 3
  else if d ≤ 30 then 4
  else if d ≤ 60 then 5
  else 6

/-- The bucket labels printed by the summarizer, in index order. -/
def bucketLabels : List String :=
  ["<2m", "2-5m", "5-10m", "10-15m", "15-30m", "30-60m", ">60m"]

/-- Duration of a completed record's interval, in minutes. -/
def durationMinutes (s e : PyDatetime) : ℚ :=
  ((toUTCMicros e - toUTCMicros s : Int) : ℚ) / 60000000

/-- Minimum of a nonempty rational list. -/
def listMinQ (d : ℚ) (ds : List ℚ) : ℚ := ds.foldl min d

/-- Maximum of a nonempty rational list. -/
def listMaxQ (d : ℚ) (ds : List ℚ) : ℚ := ds.foldl max d

/-- The numeric content of the statistics report printed by
`calculate_upgrade_stats` when at least one completed record exists. -/
structure UpgradeStats where
  total : Nat
  completed : Nat
  durations : List ℚ
  minDuration : ℚ
  maxDuration : ℚ
  avgDuration : ℚ
  variance : ℚ
  bucketCounts : List Nat
deriving Repr, DecidableEq

/-- Model of `calculate_upgrade_stats`: with no completed record it
reports `No completed upgrades found for statistics` and returns before
any duration arithmetic (modelled by `none`); otherwise it computes the
duration statistics over the completed subset. The standard deviation is
carried as its square (the variance), every other printed number is kept
exactly. -/
def calculate_upgrade_stats (upgrades : List UpgradeEvent) :
    Option UpgradeStats :=
  let completedDur : List ℚ := upgrades.filterMap (fun u =>
    match u.end_time with
    | some e => some (durationMinutes u.start_time e)
    | none => none)
  match completedDur with
  | [] => none
  | d :: ds =>
    let durations := d :: ds
    let avg := durations.sum / durations.length
    some
      { total := upgrades.length
        completed := durations.length
        durations := durations
        minDuration := listMinQ d ds
        maxDuration := listMaxQ d ds
        avgDuration := avg
        variance := (durations.map (fun x => (x - avg) ^ 2)).sum / durations.length
        bucketCounts := (List.range 7).map (fun i =>
          durations.countP (fun x => bucketIdx x == i)) }

/-! The timeline layout engine. -/

/-- The color assigned to bars of completed upgrades
(`self.colors["complete"]`). -/
def colorComplete : String := "#28a745"

/-- The color assigned to bars of still-running upgrades
(`self.colors["in_progress"]`). -/
def colorInProgress : String := "#ffc107"

/-- The horizontal extent of the chart area:
`width - margin.left - margin.right = 1200 - 200 - 50`. -/
def chartWidth : ℚ := 950

/-- Model of `datetime.replace(second=s)`: the replacement value is
validated and an out-of-range value raises `ValueError`. -/
def pyReplaceSecond (t : PyDatetime) (s : Nat) : Except PyErr PyDatetime :=
  if s ≤ 59 then Except.ok { t with second := s }
  else Except.error PyErr.valueError

/-- Minimum of a nonempty datetime list by instant; Python `min` keeps
the first minimal element. -/
def dtMinList (x : PyDatetime) (xs : List PyDatetime) : PyDatetime :=
  xs.foldl (fun r y => if toUTCMicros y < toUTCMicros r then y else r) x

/-- Maximum of a nonempty datetime list by instant; Python `max` keeps
the first maximal element. -/
def dtMaxList (x : PyDatetime) (xs : List PyDatetime) : PyDatetime :=
  xs.foldl (fun r y => if toUTCMicros r < toUTCMicros y then y else r) x

/-- One bar of the abstract scene: horizontal position, width and fill
color (vertical placement and text are not consulted by any claim). -/
structure ChartBar where
  x : ℚ
  width : ℚ
  color : String
deriving Repr, DecidableEq

/-- The abstract scene computed by `generate_chart` for a nonempty
record list. -/
structure ChartScene where
  height : Nat
  minT : PyDatetime
  maxT : PyDatetime
  totalDuration : ℚ
  bars : List ChartBar
deriving Repr, DecidableEq

/-- Result of `generate_chart`: the distinct no-data scene for an empty
record list, or a chart scene. -/
inductive SceneResult where
  | noData : SceneResult
  | chart : ChartScene → SceneResult
deriving Repr, DecidableEq

/-- The time-domain computation of `generate_chart` for a nonempty
record list `u0 :: rest`: when no record has an end time, the domain is
the min/max of start times, and a zero-width span is widened by
`min_time.replace(second=min_time.second + 60)` — which always raises
`ValueError`, because the second field of a parsed datetime is at most
59 and the replacement value at least 60. With end times present the
domain is (min start, max end). -/
def computeTimeDomain (u0 : UpgradeEvent) (rest : List UpgradeEvent) :
    Except PyErr (PyDatetime × PyDatetime) :=
  let startsRest := rest.map (fun u => u.start_time)
  match (u0 :: rest).filterMap (fun u => u.end_time) with
  | [] =>
    let mn := dtMinList u0.start_time startsRest
    let mx := dtMaxList u0.start_time startsRest
    if toUTCMicros mx - toUTCMicros mn = 0 then
      match pyReplaceSecond mn (mn.second + 60) with
      | Except.error e => Except.error e
      | Except.ok mx2 => Except.ok (mn, mx2)
    else Except.ok (mn, mx)
  | e0 :: erest => Except.ok (dtMinList u0.start_time startsRest, dtMaxList e0 erest)

/-- The horizontal geometry of one record's bar: position proportional
to the start offset; completed bars get width proportional to their
duration floored at 2 pixels and the complete color, open bars extend to
the right edge with the in-progress color. -/
def barOf (minT : PyDatetime) (total : ℚ) (u : UpgradeEvent) : ChartBar :=
  let startOffset : ℚ :=
    ((toUTCMicros u.start_time - toUTCMicros minT : Int) : ℚ) / 1000000
  let x : ℚ := startOffset / total * chartWidth
  match u.end_time with
  | some e =>
    let dur : ℚ := ((toUTCMicros e - toUTCMicros u.start_time : Int) : ℚ) / 1000000
    { x := x, width := max 2 (dur / total * chartWidth), color := colorComplete }
  | none => { x := x, width := chartWidth - x, color := colorInProgress }

/-- Model of `SVGGanttChart.generate_chart`: empty input yields the
no-data scene; otherwise the dynamic height, the time domain (where the
zero-width-span repair can raise), the total duration with its one-hour
fallback, and one bar per record are computed. -/
def generate_chart (ups : List UpgradeEvent) : Except PyErr SceneResult :=
  match ups with
  | [] => Except.ok SceneResult.noData
  | u0 :: rest =>
    match computeTimeDomain u0 rest with
    | Except.error e => Except.error e
    | Except.ok (minT, maxT) =>
      let total0 : ℚ := ((toUTCMicros maxT - toUTCMicros minT : Int) : ℚ) / 1000000
      let total : ℚ := if total0 = 0 then 3600 else total0
      let n := (u0 :: rest).length
      Except.ok (SceneResult.chart
        { height := max 800 (n * 22 + 60 + 80 + 100)
          minT := minT
          maxT := maxT
          totalDuration := total
          bars := (u0 :: rest).map (barOf minT total) })

/-! Concrete inputs used by the end-to-end claims. -/

/-- First line of the end-to-end example: the explicit start for
`gw-1`. -/
def exLine1 : String :=
  "2025-07-23T00:00:05.100000+00:00 Upgrading gw-1 to version 8.1.0-1000.1500"

/-- Second line of the end-to-end example: the completion status payload
for `gw-1` (assembled character-wise around the quote and brace
characters). -/
def exLine2 : String :=
  String.mk ("2025-07-23T00:05:05.200000+00:00 Updating upgrade_info to gw gw-1".data
    ++ [':', ' ', obc, qc] ++ "status".data ++ [qc, ':', ' ', qc]
    ++ "complete".data ++ [qc, ',', ' ', qc] ++ "curr_ver".data
    ++ [qc, ':', ' ', qc] ++ "8.1.0-1000.1600".data
    ++ [qc, ',', ' ', '.', '.', '.', cbc])

/-- The timestamp of the example start line. -/
def ts1 : PyDatetime := ⟨2025, 7, 23, 0, 0, 5, 100000, 0, 0⟩

/-- The timestamp of the example completion line. -/
def ts2 : PyDatetime := ⟨2025, 7, 23, 0, 5, 5, 200000, 0, 0⟩

/-- The single record the example input reconstructs to. -/
def exRecord : UpgradeEvent :=
  { gateway_name := "gw-1"
    start_time := ts1
    end_time := some ts2
    version_info := "8.1.0-1000.1500 -> 8.1.0-1000.1600"
    status := "complete" }

/-- Duration of a record in seconds, when it is completed. -/
def durationSecondsOf (u : UpgradeEvent) : Option ℚ :=
  u.end_time.map (fun e =>
    ((toUTCMicros e - toUTCMicros u.start_time : Int) : ℚ) / 1000000)

/-- A line whose leading text has the exact digit shape of a timestamp
but denotes month 13. -/
def badMonthLine : String :=
  "2025-13-23T00:00:05.100000+00:00 Upgrading gw-1 to version 8.1.0"

/-- A single reconstructed record with no end time. -/
def singleOpenRecord : UpgradeEvent :=
  { gateway_name := "gw-1", start_time := ts1 }

/-- A start timestamp 30 seconds after `ts1`. -/
def ts3 : PyDatetime := ⟨2025, 7, 23, 0, 0, 35, 100000, 0, 0⟩

/-- An open (no end time) record starting at `ts1`. -/
def openRecA : UpgradeEvent := { gateway_name := "gw-a", start_time := ts1 }

/-- An open (no end time) record starting 30 seconds later. -/
def openRecB : UpgradeEvent := { gateway_name := "gw-b", start_time := ts3 }

/-- Presence of a parseable leading timestamp on a (stripped) line: the
digit shape matches and the denoted date and time are in range. -/
def hasLeadingTimestamp (line : String) : Bool :=
  match parse_timestampCh (stripCh line.data) with
  | Except.ok (some _) => true
  | _ => false

/-- The record created by ingesting the example start line alone. -/
def startRec1 : UpgradeEvent :=
  { gateway_name := "gw-1", start_time := ts1
    version_info := "8.1.0-1000.1500" }

/-- A generation-reset line with a leading timestamp. -/
def resetLineEx : String :=
  "2025-07-23T00:00:00.000000+00:00 Upgrading gateways without controller upgrade..."

/-- A parser state already holding two unit records. -/
def twoRecordState : ParserState :=
  ⟨[("gw-a", openRecA), ("gw-b", openRecB)], none⟩

/-- The timestamp of the reset example line. -/
def ts0 : PyDatetime := ⟨2025, 7, 23, 0, 0, 0, 0, 0, 0⟩

/-- C1: the claim that `parse_line` never raises — in particular on
lines matching the digit shape of a timestamp while denoting an invalid
date — fails on the code: for a month-13 line the first
`datetime.fromisoformat` attempt raises `ValueError` inside the `try`
block, and the fallback attempt outside it raises `ValueError` again,
uncaught, so `parse_line` propagates the exception (leaving the parser
state untouched). -/
theorem parse_line_raises_on_invalid_calendar_timestamp :
    parse_line badMonthLine initState = (some PyErr.valueError, initState) := by
  decide

/-- C2: the claim that `generate_chart` recovers from every degenerate
zero-width time domain fails on the code: for a single record with no
end time the no-completions branch computes a zero-width span and then
evaluates `min_time.replace(second=min_time.second + 60)`, whose
replacement value is at least 60 and therefore outside the admissible
range 0..59, so the call raises `ValueError` instead of returning a
scene. -/
theorem generate_chart_raises_on_single_open_record :
    generate_chart [singleOpenRecord] = Except.error PyErr.valueError := rfl

/-- Microsecond span of the example interval. -/
theorem example_span_micros : toUTCMicros ts2 - toUTCMicros ts1 = 300100000 := by
  decide

/-- The example duration in minutes: 300.1 seconds, i.e. 3001/600
minutes, not 5 minutes. -/
theorem example_duration_minutes : durationMinutes ts1 ts2 = 3001 / 600 := by
  rw [durationMinutes, example_span_micros]
  norm_num

/-- The final parser state on the example input. -/
theorem example_ingest :
    ingestAll [exLine1, exLine2] initState
      = (none, ⟨[("gw-1", exRecord)], none⟩) := by
  decide

/-- The reconstructed record list on the example input. -/
theorem example_parse_logs :
    parse_logs [exLine1, exLine2] = Except.ok [exRecord] := by
  simp [parse_logs, example_ingest, List.mergeSort_singleton]

/-- The scene generated for the example record. -/
theorem example_chart_eq : generate_chart [exRecord] = Except.ok (SceneResult.chart
    { height := 800, minT := ts1, maxT := ts2, totalDuration := 3001 / 10,
      bars := [{ x := 0, width := chartWidth, color := colorComplete }] }) := by
  have hdom : computeTimeDomain exRecord [] = Except.ok (ts1, ts2) := rfl
  have hm0 : toUTCMicros ts1 - toUTCMicros ts1 = 0 := by decide
  simp only [generate_chart, hdom, List.map, barOf]
  simp only [exRecord, example_span_micros, hm0]
  norm_num [chartWidth]

/-- C3 (counterexample): on the two-line example input the pipeline does
produce exactly one completed `gw-1` record, but its duration is 300.1
seconds (the fractional parts .100000 and .200000 differ by a tenth of a
second), not 300.0 seconds = 5.0 minutes as claimed. -/
theorem example_duration_not_300s :
    parse_logs [exLine1, exLine2] = Except.ok [exRecord]
      ∧ durationSecondsOf exRecord = some (3001 / 10 : ℚ)
      ∧ (3001 / 10 : ℚ) ≠ 300 := by
  refine ⟨example_parse_logs, ?_, by norm_num⟩
  simp only [durationSecondsOf, exRecord, Option.map_some']
  rw [show toUTCMicros ts2 - toUTCMicros ts1 = 300100000 from by decide]
  norm_num

/-- C3 (as amended): the two-line example yields exactly one completed
record with unit id `gw-1`, duration 300.1 seconds = 3001/600 ≈ 5.0017
minutes, which the summarizer buckets into the `5-10m` bucket (index 2),
and whose bar is colored with the complete color and spans the full
chart width. -/
theorem example_pipeline_results :
    parse_logs [exLine1, exLine2] = Except.ok [exRecord]
      ∧ exRecord.gateway_name = "gw-1"
      ∧ exRecord.status = "complete"
      ∧ durationSecondsOf exRecord = some (3001 / 10 : ℚ)
      ∧ durationMinutes ts1 ts2 = 3001 / 600
      ∧ bucketIdx (durationMinutes ts1 ts2) = 2
      ∧ bucketLabels.get? 2 = some "5-10m"
      ∧ (calculate_upgrade_stats [exRecord]).map UpgradeStats.bucketCounts
          = some [0, 0, 1, 0, 0, 0, 0]
      ∧ generate_chart [exRecord] = Except.ok (SceneResult.chart
          { height := 800, minT := ts1, maxT := ts2, totalDuration := 3001 / 10,
            bars := [{ x := 0, width := chartWidth, color := colorComplete }] }) := by
  refine ⟨example_parse_logs, rfl, rfl, ?_, example_duration_minutes, ?_, rfl, ?_,
    example_chart_eq⟩
  · simp only [durationSecondsOf, exRecord, Option.map_some']
    rw [show toUTCMicros ts2 - toUTCMicros ts1 = 300100000 from by decide]
    norm_num
  · rw [example_duration_minutes, bucketIdx]
    norm_num
  · simp only [calculate_upgrade_stats, exRecord, List.filterMap_cons,
      List.filterMap_nil]
    simp only [example_duration_minutes]
    norm_num [List.range_succ, List.countP, List.countP.go, bucketIdx]
    decide

/-- The first-minimal fold underlying `dtMinList` picks an element of
the list. -/
theorem dtMinList_mem (x : PyDatetime) (xs : List PyDatetime) :
    dtMinList x xs ∈ x :: xs := by
  induction xs generalizing x with
  | nil => exact List.mem_singleton.mpr rfl
  | cons y ys ih =>
    have h : dtMinList x (y :: ys)
        = dtMinList (if toUTCMicros y < toUTCMicros x then y else x) ys := rfl
    rw [h]
    rcases List.mem_cons.mp (ih (if toUTCMicros y < toUTCMicros x then y else x)) with h1 | h1
    · rw [h1]
      by_cases hc : toUTCMicros y < toUTCMicros x
      · simp [hc]
      · simp [hc]
    · simp [h1]

/-- The first-minimal fold is a lower bound for the whole list. -/
theorem dtMinList_le (x : PyDatetime) (xs : List PyDatetime) :
    ∀ y ∈ x :: xs, toUTCMicros (dtMinList x xs) ≤ toUTCMicros y := by
  induction xs generalizing x with
  | nil =>
    intro y hy
    rw [List.mem_singleton.mp hy]
    exact le_refl _
  | cons z zs ih =>
    intro y hy
    have h : dtMinList x (z :: zs)
        = dtMinList (if toUTCMicros z < toUTCMicros x then z else x) zs := rfl
    have hhead : toUTCMicros (dtMinList x (z :: zs))
        ≤ toUTCMicros (if toUTCMicros z < toUTCMicros x then z else x) := by
      rw [h]
      exact ih _ _ (List.mem_cons_self _ _)
    rcases List.mem_cons.mp hy with rfl | hy1
    · refine le_trans hhead ?_
      by_cases hc : toUTCMicros z < toUTCMicros y
      · simp [hc]
        exact le_of_lt hc
      · simp [hc]
    · rcases List.mem_cons.mp hy1 with rfl | hy2
      · refine le_trans hhead ?_
        by_cases hc : toUTCMicros y < toUTCMicros x
        · simp [hc]
        · simp [hc]
          exact le_of_not_lt hc
      · rw [h]
        exact ih _ y (List.mem_cons_of_mem _ hy2)

/-- The first-maximal fold underlying `dtMaxList` picks an element of
the list. -/
theorem dtMaxList_mem (x : PyDatetime) (xs : List PyDatetime) :
    dtMaxList x xs ∈ x :: xs := by
  induction xs generalizing x with
  | nil => exact List.mem_singleton.mpr rfl
  | cons y ys ih =>
    have h : dtMaxList x (y :: ys)
        = dtMaxList (if toUTCMicros x < toUTCMicros y then y else x) ys := rfl
    rw [h]
    rcases List.mem_cons.mp (ih (if toUTCMicros x < toUTCMicros y then y else x)) with h1 | h1
    · rw [h1]
      by_cases hc : toUTCMicros x < toUTCMicros y
      · simp [hc]
      · simp [hc]
    · simp [h1]

/-- The first-maximal fold is an upper bound for the whole list. -/
theorem dtMaxList_ge (x : PyDatetime) (xs : List PyDatetime) :
    ∀ y ∈ x :: xs, toUTCMicros y ≤ toUTCMicros (dtMaxList x xs) := by
  induction xs generalizing x with
  | nil =>
    intro y hy
    rw [List.mem_singleton.mp hy]
    exact le_refl _
  | cons z zs ih =>
    intro y hy
    have h : dtMaxList x (z :: zs)
        = dtMaxList (if toUTCMicros x < toUTCMicros z then z else x) zs := rfl
    have hhead : toUTCMicros (if toUTCMicros x < toUTCMicros z then z else x)
        ≤ toUTCMicros (dtMaxList x (z :: zs)) := by
      rw [h]
      exact ih _ _ (List.mem_cons_self _ _)
    rcases List.mem_cons.mp hy with rfl | hy1
    · refine le_trans ?_ hhead
      by_cases hc : toUTCMicros y < toUTCMicros z
      · simp [hc]
        exact le_of_lt hc
      · simp [hc]
    · rcases List.mem_cons.mp hy1 with rfl | hy2
      · refine le_trans ?_ hhead
        by_cases hc : toUTCMicros x < toUTCMicros y
        · simp [hc]
        · simp [hc]
          exact le_of_not_lt hc
      · rw [h]
        exact ih _ y (List.mem_cons_of_mem _ hy2)

/-- Shape of the time-domain computation when no record carries an end
time: min/max of start times, and on a zero-width span the
second-field replacement, which always raises. -/
theorem computeTimeDomain_no_end (u0 : UpgradeEvent) (rest : List UpgradeEvent)
    (hnoend : ∀ u ∈ u0 :: rest, u.end_time = none) :
    computeTimeDomain u0 rest =
      (if toUTCMicros (dtMaxList u0.start_time (rest.map (fun u => u.start_time)))
          - toUTCMicros (dtMinList u0.start_time (rest.map (fun u => u.start_time))) = 0
       then Except.error PyErr.valueError
       else Except.ok (dtMinList u0.start_time (rest.map (fun u => u.start_time)),
         dtMaxList u0.start_time (rest.map (fun u => u.start_time)))) := by
  have hfm : (u0 :: rest).filterMap (fun u => u.end_time) = [] :=
    List.filterMap_eq_nil_iff.mpr hnoend
  unfold computeTimeDomain
  rw [hfm]
  dsimp only
  by_cases hz : toUTCMicros (dtMaxList u0.start_time (rest.map (fun u => u.start_time)))
      - toUTCMicros (dtMinList u0.start_time (rest.map (fun u => u.start_time))) = 0
  · rw [if_pos hz, if_pos hz]
    have : ¬ ((dtMinList u0.start_time (rest.map (fun u => u.start_time))).second + 60 ≤ 59) := by
      omega
    rw [pyReplaceSecond, if_neg this]
  · rw [if_neg hz, if_neg hz]

/-- C4 (counterexample): for two open records whose starts are 30
seconds apart, the time domain becomes (earlier start, later start): the
maximum is NOT the minimum plus a one-minute span, contradicting the
claim that `max_time` falls back to `min_time` plus a minimum one-minute
span for every sequence without end times. -/
theorem layout_two_open_records_counterexample :
    computeTimeDomain openRecA [openRecB] = Except.ok (ts1, ts3)
      ∧ toUTCMicros ts3 - toUTCMicros ts1 = 30000000
      ∧ toUTCMicros ts3 ≠ toUTCMicros ts1 + 60000000 :=
  ⟨rfl, by decide, by decide⟩

/-- C4 (as amended): when no record has an end time, the domain is the
minimum and maximum of the start times whenever these are not all equal;
when they are all equal, the attempted one-minute widening raises
`ValueError` instead of producing a domain. -/
theorem layout_domain_when_no_end_times (u0 : UpgradeEvent)
    (rest : List UpgradeEvent)
    (hnoend : ∀ u ∈ u0 :: rest, u.end_time = none) :
    ((∀ u ∈ u0 :: rest, toUTCMicros u.start_time = toUTCMicros u0.start_time) →
        computeTimeDomain u0 rest = Except.error PyErr.valueError)
      ∧ ((∃ u ∈ u0 :: rest, toUTCMicros u.start_time ≠ toUTCMicros u0.start_time) →
        ∃ mn mx, computeTimeDomain u0 rest = Except.ok (mn, mx)
          ∧ (∃ u ∈ u0 :: rest, mn = u.start_time)
          ∧ (∃ u ∈ u0 :: rest, mx = u.start_time)
          ∧ (∀ u ∈ u0 :: rest, toUTCMicros mn ≤ toUTCMicros u.start_time
              ∧ toUTCMicros u.start_time ≤ toUTCMicros mx)) := by
  have hshape := computeTimeDomain_no_end u0 rest hnoend
  have hmapeq : u0.start_time :: rest.map (fun u => u.start_time)
      = (u0 :: rest).map (fun u => u.start_time) := rfl
  have hmnmem := dtMinList_mem u0.start_time (rest.map (fun u => u.start_time))
  have hmxmem := dtMaxList_mem u0.start_time (rest.map (fun u => u.start_time))
  rw [hmapeq] at hmnmem hmxmem
  obtain ⟨umn, humn, hmn⟩ := List.mem_map.mp hmnmem
  obtain ⟨umx, humx, hmx⟩ := List.mem_map.mp hmxmem
  constructor
  · intro hall
    have hz : toUTCMicros (dtMaxList u0.start_time (rest.map (fun u => u.start_time)))
        - toUTCMicros (dtMinList u0.start_time (rest.map (fun u => u.start_time))) = 0 := by
      rw [← hmn, ← hmx, hall umn humn, hall umx humx]
      ring
    rw [hshape, if_pos hz]
  · intro ⟨u, hu, hne⟩
    have hlo := dtMinList_le u0.start_time (rest.map (fun u => u.start_time))
    have hhi := dtMaxList_ge u0.start_time (rest.map (fun u => u.start_time))
    rw [hmapeq] at hlo hhi
    have hlo' : ∀ v ∈ u0 :: rest,
        toUTCMicros (dtMinList u0.start_time (rest.map (fun w => w.start_time)))
          ≤ toUTCMicros v.start_time := by
      intro v hv
      exact hlo _ (List.mem_map.mpr ⟨v, hv, rfl⟩)
    have hhi' : ∀ v ∈ u0 :: rest,
        toUTCMicros v.start_time
          ≤ toUTCMicros (dtMaxList u0.start_time (rest.map (fun w => w.start_time))) := by
      intro v hv
      exact hhi _ (List.mem_map.mpr ⟨v, hv, rfl⟩)
    have hz : ¬ (toUTCMicros (dtMaxList u0.start_time (rest.map (fun w => w.start_time)))
        - toUTCMicros (dtMinList u0.start_time (rest.map (fun w => w.start_time))) = 0) := by
      intro h0
      have h1 := hlo' u hu
      have h2 := hhi' u hu
      have h3 := hlo' u0 (List.mem_cons_self _ _)
      have h4 := hhi' u0 (List.mem_cons_self _ _)
      omega
    refine ⟨_, _, by rw [hshape, if_neg hz], ⟨umn, humn, hmn.symm⟩,
      ⟨umx, humx, hmx.symm⟩, fun v hv => ⟨hlo' v hv, hhi' v hv⟩⟩

/-- C4 (witness): the amended domain characterization applied to the
two concrete open records 30 seconds apart. -/
theorem layout_domain_when_no_end_times_witness :
    ((∀ u ∈ openRecA :: [openRecB],
        toUTCMicros u.start_time = toUTCMicros openRecA.start_time) →
      computeTimeDomain openRecA [openRecB] = Except.error PyErr.valueError)
      ∧ ((∃ u ∈ openRecA :: [openRecB],
          toUTCMicros u.start_time ≠ toUTCMicros openRecA.start_time) →
        ∃ mn mx, computeTimeDomain openRecA [openRecB] = Except.ok (mn, mx)
          ∧ (∃ u ∈ openRecA :: [openRecB], mn = u.start_time)
          ∧ (∃ u ∈ openRecA :: [openRecB], mx = u.start_time)
          ∧ (∀ u ∈ openRecA :: [openRecB],
              toUTCMicros mn ≤ toUTCMicros u.start_time
                ∧ toUTCMicros u.start_time ≤ toUTCMicros mx)) :=
  layout_domain_when_no_end_times openRecA [openRecB] (by decide)

/-- Reassigning a key returns that key's new value on lookup. -/
theorem dictGet_dictSet_self (k : String) (v : UpgradeEvent)
    (l : List (String × UpgradeEvent)) :
    dictGet k (dictSet k v l) = some v := by
  induction l with
  | nil => simp [dictGet, dictSet]
  | cons p rest ih =>
    by_cases h : p.1 = k
    · simp [dictSet, dictGet, h]
    · simp [dictSet, dictGet, h, ih]

/-- Reduction of `parse_line` on any line that reaches the completion
branch: the hypotheses pin the classification cascade down to the
completion pattern match. -/
theorem parse_line_completion_shape (line : String) (ts : PyDatetime)
    (g1 g2 : List Char)
    (hne : (stripCh line.data).isEmpty = false)
    (hts : parse_timestampCh (stripCh line.data) = Except.ok (some ts))
    (hreset : hasSub resetLit (stripCh line.data) = false)
    (hstart : searchStart (stripCh line.data) = none)
    (hinst : searchInstalling (stripCh line.data) = none)
    (hcomp : searchComplete (stripCh line.data) = some (g1, g2))
    (s : ParserState) :
    parse_line line s = (none,
      match dictGet (String.mk g1) s.upgrades with
      | some ev =>
        if ev.status == "complete" then s
        else { s with upgrades := dictSet (String.mk g1) (completeEvent ev ts g2) s.upgrades }
      | none => { s with upgrades := dictSet (String.mk g1) (mkRetroEvent g1 g2 ts) s.upgrades }) := by
  simp only [parse_line, hne, Bool.false_eq_true, if_false, hts, hreset, hstart,
    hinst, hcomp, classify]

/-- C6: ingesting the same completion line twice is idempotent — after
the first ingestion the unit's record has status `complete` (whether it
was completed in place, was already complete, or was created
retroactively), so the second ingestion takes the duplicate-completion
no-op branch and returns the state unchanged, leaving a record identical
in every field. -/
theorem duplicate_completion_idempotent (line : String) (ts : PyDatetime)
    (g1 g2 : List Char) (st st1 : ParserState)
    (hne : (stripCh line.data).isEmpty = false)
    (hts : parse_timestampCh (stripCh line.data) = Except.ok (some ts))
    (hreset : hasSub resetLit (stripCh line.data) = false)
    (hstart : searchStart (stripCh line.data) = none)
    (hinst : searchInstalling (stripCh line.data) = none)
    (hcomp : searchComplete (stripCh line.data) = some (g1, g2))
    (h1 : parse_line line st = (none, st1)) :
    parse_line line st1 = (none, st1) := by
  have hshape := parse_line_completion_shape line ts g1 g2 hne hts hreset hstart
    hinst hcomp
  rw [hshape st] at h1
  rw [hshape st1]
  rcases hget : dictGet (String.mk g1) st.upgrades with _ | ev
  · rw [hget] at h1
    have hst1 : st1 = { st with upgrades := dictSet (String.mk g1) (mkRetroEvent g1 g2 ts) st.upgrades } :=
      (congrArg Prod.snd h1).symm
    rw [hst1]
    simp [dictGet_dictSet_self, mkRetroEvent]
  · simp only [hget] at h1
    by_cases hs : ev.status == "complete"
    · rw [if_pos hs] at h1
      have hst1 : st1 = st := (congrArg Prod.snd h1).symm
      simp only [hst1, hget]
      rw [if_pos hs]
    · rw [if_neg hs] at h1
      have hst1 : st1 = { st with upgrades := dictSet (String.mk g1) (completeEvent ev ts g2) st.upgrades } :=
        (congrArg Prod.snd h1).symm
      rw [hst1]
      simp [dictGet_dictSet_self, completeEvent]

/-- C6 (witness): feeding the example completion line to the state it
itself produced (the completed `gw-1` record) changes nothing. -/
theorem duplicate_completion_idempotent_witness :
    parse_line exLine2 ⟨[("gw-1", exRecord)], none⟩
      = (none, ⟨[("gw-1", exRecord)], none⟩) :=
  duplicate_completion_idempotent exLine2 ts2 "gw-1".data "8.1.0-1000.1600".data
    ⟨[("gw-1", startRec1)], none⟩ ⟨[("gw-1", exRecord)], none⟩
    rfl rfl rfl rfl rfl rfl (by decide)

/-- C7: a completion line for a unit with no existing record creates a
retroactive record whose start and end times are both the line
timestamp, whose status is complete, and whose version note carries the
retroactive provenance marker. -/
theorem completion_without_start_retroactive (line : String) (ts : PyDatetime)
    (g1 g2 : List Char) (st : ParserState)
    (hne : (stripCh line.data).isEmpty = false)
    (hts : parse_timestampCh (stripCh line.data) = Except.ok (some ts))
    (hreset : hasSub resetLit (stripCh line.data) = false)
    (hstart : searchStart (stripCh line.data) = none)
    (hinst : searchInstalling (stripCh line.data) = none)
    (hcomp : searchComplete (stripCh line.data) = some (g1, g2))
    (habsent : dictGet (String.mk g1) st.upgrades = none) :
    parse_line line st = (none, { st with upgrades := dictSet (String.mk g1) (mkRetroEvent g1 g2 ts) st.upgrades })
      ∧ (mkRetroEvent g1 g2 ts).start_time = ts
      ∧ (mkRetroEvent g1 g2 ts).end_time = some ts
      ∧ (mkRetroEvent g1 g2 ts).status = "complete"
      ∧ (mkRetroEvent g1 g2 ts).version_info = "(retroactive) -> " ++ String.mk g2 := by
  refine ⟨?_, rfl, rfl, rfl, rfl⟩
  rw [parse_line_completion_shape line ts g1 g2 hne hts hreset hstart hinst hcomp st]
  simp only [habsent]

/-- C7 (witness): the example completion line fed to the freshly
initialized parser creates the retroactive `gw-1` record. -/
theorem completion_without_start_retroactive_witness :
    parse_line exLine2 initState = (none, { initState with upgrades := dictSet (String.mk "gw-1".data) (mkRetroEvent "gw-1".data "8.1.0-1000.1600".data ts2) initState.upgrades })
      ∧ (mkRetroEvent "gw-1".data "8.1.0-1000.1600".data ts2).start_time = ts2
      ∧ (mkRetroEvent "gw-1".data "8.1.0-1000.1600".data ts2).end_time = some ts2
      ∧ (mkRetroEvent "gw-1".data "8.1.0-1000.1600".data ts2).status = "complete"
      ∧ (mkRetroEvent "gw-1".data "8.1.0-1000.1600".data ts2).version_info
          = "(retroactive) -> " ++ String.mk "8.1.0-1000.1600".data :=
  completion_without_start_retroactive exLine2 ts2 "gw-1".data
    "8.1.0-1000.1600".data initState rfl rfl rfl rfl rfl rfl rfl

/-- C8: a generation-reset line clears every held unit record and
records the generation start time; a subsequent explicit start marker
then yields a record set of exactly one record. -/
theorem reset_clears_then_start_single (lr ls : String) (st : ParserState)
    (tsr tss : PyDatetime) (g1 g2 : List Char)
    (hrne : (stripCh lr.data).isEmpty = false)
    (hrts : parse_timestampCh (stripCh lr.data) = Except.ok (some tsr))
    (hrreset : hasSub resetLit (stripCh lr.data) = true)
    (hsne : (stripCh ls.data).isEmpty = false)
    (hsts : parse_timestampCh (stripCh ls.data) = Except.ok (some tss))
    (hsreset : hasSub resetLit (stripCh ls.data) = false)
    (hsstart : searchStart (stripCh ls.data) = some (g1, g2)) :
    parse_line lr st = (none, ⟨[], some tsr⟩)
      ∧ parse_line ls ⟨[], some tsr⟩ = (none, ⟨[(String.mk g1, mkStartEvent g1 g2 tss)], some tsr⟩)
      ∧ ([(String.mk g1, mkStartEvent g1 g2 tss)] : List (String × UpgradeEvent)).length = 1 := by
  refine ⟨?_, ?_, rfl⟩
  · simp [parse_line, classify, hrne, hrts, hrreset]
  · simp [parse_line, classify, hsne, hsts, hsreset, hsstart, dictSet]

/-- C8 (witness): resetting a two-record state with the example reset
line and then ingesting the example start line leaves exactly one
record. -/
theorem reset_clears_then_start_single_witness :
    parse_line resetLineEx twoRecordState = (none, ⟨[], some ts0⟩)
      ∧ parse_line exLine1 ⟨[], some ts0⟩ = (none, ⟨[(String.mk "gw-1".data, mkStartEvent "gw-1".data " 8.1.0-1000.1500".data ts1)], some ts0⟩)
      ∧ ([(String.mk "gw-1".data, mkStartEvent "gw-1".data " 8.1.0-1000.1500".data ts1)] : List (String × UpgradeEvent)).length = 1 :=
  reset_clears_then_start_single resetLineEx exLine1 twoRecordState ts0 ts1
    "gw-1".data " 8.1.0-1000.1500".data rfl rfl rfl rfl rfl rfl rfl

/-- C9: a line without a parseable leading timestamp (malformed shape,
empty line, or a shape whose fields are out of range) leaves the parser
state — unit-record mapping and generation start time — unchanged. -/
theorem no_timestamp_no_state_change (line : String) (st : ParserState)
    (h : hasLeadingTimestamp line = false) :
    (parse_line line st).2 = st := by
  unfold parse_line
  dsimp only
  split
  · rfl
  · rcases hE : parse_timestampCh (stripCh line.data) with e | o
    · rfl
    · rcases o with _ | ts
      · rfl
      · exfalso
        unfold hasLeadingTimestamp at h
        rw [hE] at h
        simp at h

/-- C9 (witness): a line with no leading timestamp leaves a two-record
state unchanged. -/
theorem no_timestamp_no_state_change_witness :
    (parse_line "no timestamp here" twoRecordState).2 = twoRecordState :=
  no_timestamp_no_state_change "no timestamp here" twoRecordState rfl

/-- C10: with zero completed records the summarizer reports the no-data
message and returns before computing any duration statistic, so no
division by the completed count is ever evaluated. -/
theorem no_completed_upgrades_no_stats (ups : List UpgradeEvent)
    (h : ∀ u ∈ ups, u.end_time = none) :
    calculate_upgrade_stats ups = none := by
  unfold calculate_upgrade_stats
  have hfm : ups.filterMap (fun u =>
      match u.end_time with
      | some e => some (durationMinutes u.start_time e)
      | none => none) = [] := by
    rw [List.filterMap_eq_nil_iff]
    intro u hu
    rw [h u hu]
  rw [hfm]

/-- C10 (witness): two open records yield no statistics report. -/
theorem no_completed_upgrades_no_stats_witness :
    calculate_upgrade_stats [openRecA, openRecB] = none :=
  no_completed_upgrades_no_stats [openRecA, openRecB] (by decide)

/-- Transitivity of the start-time sort comparison. -/
theorem startLE_trans (a b c : UpgradeEvent) :
    startLE a b → startLE b c → startLE a c := by
  simp only [startLE, decide_eq_true_eq]
  omega

/-- Totality of the start-time sort comparison. -/
theorem startLE_total (a b : UpgradeEvent) : startLE a b || startLE b a := by
  simp only [startLE, Bool.or_eq_true, decide_eq_true_eq]
  omega

/-- Keys after a dict assignment: unchanged when the key is present,
appended otherwise. -/
theorem dictSet_keys (k : String) (v : UpgradeEvent)
    (l : List (String × UpgradeEvent)) :
    (dictSet k v l).map Prod.fst =
      if k ∈ l.map Prod.fst then l.map Prod.fst else l.map Prod.fst ++ [k] := by
  induction l with
  | nil => simp [dictSet]
  | cons p rest ih =>
    by_cases h : p.1 = k
    · simp [dictSet, h]
    · have hne : ¬ (k = p.1) := fun hh => h hh.symm
      by_cases hm : k ∈ rest.map Prod.fst
      · simp [dictSet, h, ih, hm, hne]
      · simp [dictSet, h, ih, hm, hne]

/-- A dict assignment preserves distinctness of the keys. -/
theorem dictSet_keys_nodup (k : String) (v : UpgradeEvent)
    (l : List (String × UpgradeEvent))
    (h : (l.map Prod.fst).Nodup) :
    ((dictSet k v l).map Prod.fst).Nodup := by
  rw [dictSet_keys]
  split
  · exact h
  · next hmem =>
    rw [List.nodup_append]
    refine ⟨h, List.nodup_singleton k, fun a ha hb => ?_⟩
    rw [List.mem_singleton.mp hb] at ha
    exact hmem ha

/-- The classification cascade only ever keeps the record map, clears
it, or performs a single dict assignment on it. -/
theorem classify_upgrades_cases (cs : List Char) (ts : PyDatetime)
    (st : ParserState) :
    (classify cs ts st).upgrades = st.upgrades
      ∨ (classify cs ts st).upgrades = []
      ∨ ∃ k v, (classify cs ts st).upgrades = dictSet k v st.upgrades := by
  unfold classify
  repeat' split
  all_goals first
    | (left; rfl)
    | (right; left; rfl)
    | (right; right; exact ⟨_, _, rfl⟩)

/-- Ingesting one line preserves distinctness of the unit-id keys. -/
theorem parse_line_keys_nodup (line : String) (st : ParserState)
    (h : (st.upgrades.map Prod.fst).Nodup) :
    (((parse_line line st).2).upgrades.map Prod.fst).Nodup := by
  unfold parse_line
  dsimp only
  split
  · exact h
  · split
    · exact h
    · exact h
    · rcases classify_upgrades_cases (stripCh line.data) _ st with hc | hc | ⟨k, v, hc⟩
      · rw [hc]; exact h
      · rw [hc]; simp
      · rw [hc]; exact dictSet_keys_nodup k v _ h

/-- Ingesting any line sequence preserves distinctness of the unit-id
keys. -/
theorem ingestAll_keys_nodup (lines : List String) (st : ParserState)
    (h : (st.upgrades.map Prod.fst).Nodup) :
    (((ingestAll lines st).2).upgrades.map Prod.fst).Nodup := by
  induction lines generalizing st with
  | nil => exact h
  | cons l ls ih =>
    unfold ingestAll
    rcases hp : parse_line l st with ⟨oe, st1⟩
    have h1 : (st1.upgrades.map Prod.fst).Nodup := by
      have h2 := parse_line_keys_nodup l st h
      rw [hp] at h2
      exact h2
    cases oe with
    | none => exact ih st1 h1
    | some e => exact h1

/-- Stability of the start-time sort: for every instant, the sublist of
records starting at that instant is unchanged by the sort, so ties keep
their insertion order. -/
theorem mergeSort_filter_start_eq (l : List UpgradeEvent) (t : Int) :
    (l.mergeSort startLE).filter (fun e => toUTCMicros e.start_time == t)
      = l.filter (fun e => toUTCMicros e.start_time == t) := by
  have hPW : (l.filter (fun e => toUTCMicros e.start_time == t)).Pairwise
      (fun a b => startLE a b) := by
    apply List.pairwise_of_forall_mem_list
    intro a ha b hb
    have ha2 := (List.mem_filter.mp ha).2
    have hb2 := (List.mem_filter.mp hb).2
    simp only [beq_iff_eq] at ha2 hb2
    simp only [startLE, decide_eq_true_eq]
    omega
  have h1 : List.Sublist (l.filter (fun e => toUTCMicros e.start_time == t))
      (l.mergeSort startLE) :=
    List.sublist_mergeSort startLE_trans startLE_total hPW (List.filter_sublist l)
  have h3 : (l.filter (fun e => toUTCMicros e.start_time == t)).filter
      (fun e => toUTCMicros e.start_time == t)
      = l.filter (fun e => toUTCMicros e.start_time == t) := by
    apply List.filter_eq_self.mpr
    intro a ha
    exact (List.mem_filter.mp ha).2
  have h4 : List.Sublist (l.filter (fun e => toUTCMicros e.start_time == t))
      ((l.mergeSort startLE).filter (fun e => toUTCMicros e.start_time == t)) := by
    have h5 := h1.filter (fun e => toUTCMicros e.start_time == t)
    rw [h3] at h5
    exact h5
  have h2 : List.Perm
      ((l.mergeSort startLE).filter (fun e => toUTCMicros e.start_time == t))
      (l.filter (fun e => toUTCMicros e.start_time == t)) :=
    (List.mergeSort_perm l startLE).filter _
  exact (h4.eq_of_length h2.length_eq.symm).symm

/-- C5: whenever ingestion completes without raising, `parse_logs`
returns the stable start-time sort of the record map's values: the
output is sorted ascending by start time, is a permutation of the held
records (whose unit-id keys are pairwise distinct — exactly one record
per unit id, none dropped, none duplicated), and records with equal
start times appear in insertion order. -/
theorem parse_logs_sorted_stable_perm (lines : List String) (st : ParserState)
    (h : ingestAll lines initState = (none, st)) :
    parse_logs lines = Except.ok ((st.upgrades.map Prod.snd).mergeSort startLE)
      ∧ ((st.upgrades.map Prod.snd).mergeSort startLE).Pairwise
          (fun a b => toUTCMicros a.start_time ≤ toUTCMicros b.start_time)
      ∧ ((st.upgrades.map Prod.snd).mergeSort startLE).Perm
          (st.upgrades.map Prod.snd)
      ∧ (∀ t : Int,
          ((st.upgrades.map Prod.snd).mergeSort startLE).filter
              (fun e => toUTCMicros e.start_time == t)
            = (st.upgrades.map Prod.snd).filter
              (fun e => toUTCMicros e.start_time == t))
      ∧ (st.upgrades.map Prod.fst).Nodup := by
  refine ⟨?_, ?_, List.mergeSort_perm _ _, fun t => mergeSort_filter_start_eq _ t, ?_⟩
  · unfold parse_logs
    rw [h]
  · have hs := List.sorted_mergeSort startLE_trans startLE_total
      (st.upgrades.map Prod.snd)
    exact hs.imp (fun hab => by
      simpa only [startLE, decide_eq_true_eq] using hab)
  · have hn := ingestAll_keys_nodup lines initState (by simp [initState])
    rw [h] at hn
    exact hn

/-- C5 (witness): the statement instantiated on the two-line example
input and its final parser state. -/
theorem parse_logs_sorted_stable_perm_witness :
    parse_logs [exLine1, exLine2]
        = Except.ok ((([("gw-1", exRecord)].map Prod.snd)).mergeSort startLE)
      ∧ ((([("gw-1", exRecord)].map Prod.snd)).mergeSort startLE).Pairwise
          (fun a b => toUTCMicros a.start_time ≤ toUTCMicros b.start_time)
      ∧ ((([("gw-1", exRecord)].map Prod.snd)).mergeSort startLE).Perm
          ([("gw-1", exRecord)].map Prod.snd)
      ∧ (∀ t : Int,
          ((([("gw-1", exRecord)].map Prod.snd)).mergeSort startLE).filter
              (fun e => toUTCMicros e.start_time == t)
            = ([("gw-1", exRecord)].map Prod.snd).filter
              (fun e => toUTCMicros e.start_time == t))
      ∧ (([("gw-1", exRecord)] : List (String × UpgradeEvent)).map Prod.fst).Nodup :=
  parse_logs_sorted_stable_perm [exLine1, exLine2] ⟨[("gw-1", exRecord)], none⟩
    example_ingest
